import Mathlib

/-!
Verification of the run-state synchronization engine of the
EarningsCallAgenticRag web frontend.

JavaScript strings are modelled as lists of characters (`Str`); the
frontend's component state updates are modelled as pure functions on
explicit state records.
-/

namespace EarningsCallRag

/-- JavaScript strings, modelled as character lists. -/
abbrev Str := List Char

/-- JavaScript truthiness of a string: the empty string is falsy. -/
def strTruthy (s : Str) : Bool := !s.isEmpty

/-- JavaScript truthiness of an optional string (`undefined`/`null`/`""` are falsy). -/
def optTruthy (o : Option Str) : Bool := strTruthy (o.getD [])

/-- The log-merge updater passed to `setLogText` in
`RunDetail.tsx` lines 28-34:
if `incoming.startsWith(prev)` return `prev + incoming.slice(prev.length)`,
else return `incoming`. -/
def reconcile (prev incoming : Str) : Str :=
  if prev.isPrefixOf incoming then prev ++ incoming.drop prev.length
  else incoming

/-- A run record, with the fields the frontend reads
(`run_id`, `status`, `total_rows`, `completed_rows`, `kg_path`, `error`). -/
structure RunRecord where
  run_id : Str
  status : Str
  total_rows : Option Nat
  completed_rows : Nat
  kg_path : Option Str
  err : Option Str
  deriving DecidableEq

/-- One prediction row as rendered by the results table. -/
structure RunResultRow where
  ticker : Str
  quarter : Str
  predicted_direction : Str
  deriving DecidableEq

/-- The component state of `RunDetail`:
`run`, `results`, `logText`, `error`, `kgUrl` (lines 9-13). -/
structure PollState where
  run : Option RunRecord
  results : List RunResultRow
  logText : Str
  errMsg : Option Str
  kgUrl : Str
  deriving DecidableEq

/-- The outcome of one poll cycle's three concurrent fetches:
either all three resolve (run metadata, log text, result rows) or the
`Promise.all` rejects with an error message. -/
inductive FetchOutcome where
  | success (run : Option RunRecord) (log : Str) (results : List RunResultRow)
  | failure (msg : Str)
  deriving DecidableEq

/-- The KG access path built at `RunDetail.tsx` line 26. -/
def kgUrlFor (runId : Str) : Str :=
  ("/api/runs/").data ++ runId ++ ("/kg").data

/-- The state update performed by one `poll` invocation
(`RunDetail.tsx` lines 17-39).  On success it sets `run`, conditionally
sets `kgUrl` (only when `runResp.run?.kg_path` is truthy and `kgUrl` is
still falsy), merges the log through `reconcile`, and replaces `results`;
the `error` field is left untouched.  On failure only `error` is set. -/
def applyCycle (runId : Str) (s : PollState) : FetchOutcome → PollState
  | .success runResp log results =>
      { run := runResp
        kgUrl :=
          if optTruthy (runResp.bind RunRecord.kg_path) && !(strTruthy s.kgUrl)
          then kgUrlFor runId else s.kgUrl
        logText := reconcile s.logText log
        results := results
        errMsg := s.errMsg }
  | .failure msg => { s with errMsg := some msg }

/-- The poller as a whole: the component state, whether the interval
timer is still installed, and the outcomes of cycles already started but
not yet resolved. -/
structure PollerWorld where
  state : PollState
  timerActive : Bool
  pending : List FetchOutcome
  deriving DecidableEq

/-- The interval timer firing `poll` (line 41): a new cycle starts only
while the timer is installed. -/
def startCycle (o : FetchOutcome) (w : PollerWorld) : PollerWorld :=
  if w.timerActive then { w with pending := w.pending ++ [o] } else w

/-- An in-flight cycle's promises settle and the `poll` body applies its
updates.  The source's `poll` closure contains no cancellation check, so
the update is applied whether or not the timer is still installed. -/
def resolveCycle (runId : Str) (w : PollerWorld) : PollerWorld :=
  match w.pending with
  | [] => w
  | o :: rest => { w with state := applyCycle runId w.state o, pending := rest }

/-- The `useEffect` cleanup (line 42): `clearInterval(timer)` uninstalls
the timer and nothing else. -/
def cancelPoller (w : PollerWorld) : PollerWorld := { w with timerActive := false }

/-- What the progress bar renders: `RunDetail.tsx` line 65 always emits
`<progress value={run.completed_rows} max={run.total_rows ?? 1}>`. -/
inductive ProgressView where
  | determinate (value : Nat) (maxVal : Nat)
  | indeterminate
  deriving DecidableEq

/-- The progress rendering of `RunDetail.tsx` line 65. -/
def progressView (r : RunRecord) : ProgressView :=
  .determinate r.completed_rows (r.total_rows.getD 1)

/-- The fraction a progress view denotes, `none` for indeterminate. -/
def viewFraction : ProgressView → Option ℚ
  | .determinate v m => some ((v : ℚ) / m)
  | .indeterminate => none

/-- Modelled from the spec's words (for comparison with `progressView`):
"Progress fraction is indeterminate whenever `total_rows` is absent or
zero, and equals `completed_rows/total_rows` otherwise, clamped to
`[0,1]`". -/
def specProgressFraction (r : RunRecord) : Option ℚ :=
  match r.total_rows with
  | none => none
  | some t => if t = 0 then none else some (min 1 ((r.completed_rows : ℚ) / t))

/-- Knowledge-graph availability as rendered at `RunDetail.tsx`
line 105: `run && (run.kg_path || run.status === 'running')`. -/
def kgAvailable : Option RunRecord → Bool
  | none => false
  | some r => optTruthy r.kg_path || r.status == ("running").data

/-- The component state of `Dashboard` relevant to the run list. -/
structure DashboardState where
  runs : List RunRecord
  errMsg : Option Str
  deriving DecidableEq

/-- Outcome of the `clearHistory` request. -/
inductive ClearOutcome where
  | success
  | failure (msg : Str)
  deriving DecidableEq

/-- The clear-history click handler (`Dashboard.tsx` lines 188-196):
`setError(null)`, then on success `setRuns([])`; on failure
`setError(message)` with `runs` untouched. -/
def clearHistoryClick (s : DashboardState) : ClearOutcome → DashboardState
  | .success => { runs := [], errMsg := none }
  | .failure msg => { runs := s.runs, errMsg := some msg }

/-! ### Helper lemmas -/

theorem reconcile_eq_incoming (prev inc : Str) : reconcile prev inc = inc := by
  unfold reconcile
  split
  · rename_i h
    obtain ⟨t, rfl⟩ := List.isPrefixOf_iff_prefix.mp h
    rw [List.drop_left]
  · rfl

theorem foldl_reconcile_getLast (Ls : List Str) (init : Str) (hne : Ls ≠ []) :
    Ls.foldl reconcile init = Ls.getLast hne := by
  induction Ls generalizing init with
  | nil => exact absurd rfl hne
  | cons a as ih =>
    cases as with
    | nil => simp [List.foldl, reconcile_eq_incoming]
    | cons b bs =>
      rw [List.foldl_cons, ih (reconcile init a) (by simp)]
      rfl

/-! ### Claims -/

/-- C1: whenever `incoming` starts with `previous` (including
`previous = ""`), the reconciler returns
`previous ++ incoming.drop previous.length`, which equals `incoming`;
in particular `reconcile "" b = b` for every `b`. -/
theorem reconcile_prefix_extension :
    (∀ prev inc : Str, prev.isPrefixOf inc →
        reconcile prev inc = prev ++ inc.drop prev.length ∧
        reconcile prev inc = inc) ∧
    (∀ b : Str, reconcile [] b = b) := by
  constructor
  · intro prev inc h
    exact ⟨by simp [reconcile, h], reconcile_eq_incoming prev inc⟩
  · intro b
    exact reconcile_eq_incoming [] b

/-- Witness for C1 at `prev = "ab"`, `inc = "abc"`. -/
theorem reconcile_prefix_extension_witness :
    reconcile ("ab").data ("abc").data = ("abc").data ∧
    reconcile [] ("xyz").data = ("xyz").data :=
  ⟨(reconcile_prefix_extension.1 ("ab").data ("abc").data (by decide)).2,
   reconcile_prefix_extension.2 ("xyz").data⟩

/-- C2 counterexample: no `ReconciliationAnomaly` is ever signaled.  The
observable poll state carries no anomaly marker: a cycle whose log
snapshot is *not* a prefix extension of the buffer (`"abc"` → `"xyz"`)
produces a state identical to a cycle whose snapshot *is* a prefix
extension (`"xy"` → `"xyz"`), so the non-prefix replacement event is not
distinguishable — from a plain error or from anything else. -/
theorem reconcile_anomaly_not_signaled :
    ¬ (("abc").data.isPrefixOf ("xyz").data = true) ∧
    ("xy").data.isPrefixOf ("xyz").data = true ∧
    applyCycle [] ⟨none, [], ("abc").data, none, []⟩
        (.success none ("xyz").data []) =
      applyCycle [] ⟨none, [], ("xy").data, none, []⟩
        (.success none ("xyz").data []) := by
  refine ⟨by decide, by decide, ?_⟩
  decide

/-- C2 amended: when `incoming` does not start with a non-empty
`previous`, the reconciler returns `incoming` verbatim (full
replacement); no anomaly event is signaled. -/
theorem reconcile_full_replacement (prev inc : Str)
    (_hne : prev ≠ []) (h : ¬ prev.isPrefixOf inc) :
    reconcile prev inc = inc := by
  simp [reconcile, h]

/-- Witness for the amended C2 at `prev = "abc"`, `inc = "xyz"`. -/
theorem reconcile_full_replacement_witness :
    reconcile ("abc").data ("xyz").data = ("xyz").data :=
  reconcile_full_replacement ("abc").data ("xyz").data (by decide) (by decide)

/-- C3: the reconciler is idempotent, `reconcile x x = x`. -/
theorem reconcile_idempotent (x : Str) : reconcile x x = x :=
  reconcile_eq_incoming x x

/-- C4: feeding a prefix chain of log snapshots `L1, ..., LN` through
the reconciler, one per cycle, starting from the empty buffer, leaves
the buffer equal to `LN` exactly. -/
theorem poll_monotone_prefix_chain (Ls : List Str) (hne : Ls ≠ [])
    (_hchain : Ls.Chain' (· <+: ·)) :
    Ls.foldl reconcile [] = Ls.getLast hne :=
  foldl_reconcile_getLast Ls [] hne

/-- Witness for C4: end-to-end scenario A,
snapshots `"line1\n"`, `"line1\nline2\n"`, `"line1\nline2\nline3\n"`. -/
theorem poll_monotone_prefix_chain_witness :
    [("line1\n").data, ("line1\nline2\n").data,
        ("line1\nline2\nline3\n").data].foldl reconcile [] =
      ("line1\nline2\nline3\n").data :=
  (poll_monotone_prefix_chain
      [("line1\n").data, ("line1\nline2\n").data, ("line1\nline2\nline3\n").data]
      (by decide)
      (List.chain'_cons.mpr
        ⟨List.isPrefixOf_iff_prefix.mp (by decide),
         List.chain'_cons.mpr
          ⟨List.isPrefixOf_iff_prefix.mp (by decide),
           List.chain'_singleton _⟩⟩)).trans (by decide)

/-- C5 counterexample: a successful cycle does *not* clear the retained
error message — `poll`'s success path never calls `setError(null)`, so
an earlier failure's message survives a later successful cycle. -/
theorem success_does_not_clear_error :
    (applyCycle [] ⟨none, [], [], some ("boom").data, []⟩
        (.success none [] [])).errMsg = some ("boom").data ∧
    some ("boom").data ≠ (none : Option Str) := by
  refine ⟨by decide, by decide⟩

/-- C5 amended: a failed cycle surfaces its message as the observable
error state and the polling loop is not stopped (neither resolving a
cycle nor starting one changes whether the timer is installed); but the
retained message is *not* cleared by the next successful cycle — a
successful cycle leaves the error field unchanged, and the message is
only ever replaced by a later failure's message. -/
theorem poll_failure_surfaced_and_error_retained
    (rid : Str) (s : PollState) (msg : Str)
    (run : Option RunRecord) (log : Str) (results : List RunResultRow)
    (w : PollerWorld) (o : FetchOutcome) :
    (applyCycle rid s (.failure msg)).errMsg = some msg ∧
    (applyCycle rid s (.success run log results)).errMsg = s.errMsg ∧
    (resolveCycle rid w).timerActive = w.timerActive ∧
    (startCycle o w).timerActive = w.timerActive := by
  refine ⟨rfl, rfl, ?_, ?_⟩
  · unfold resolveCycle
    cases w.pending <;> rfl
  · unfold startCycle
    split <;> rfl

/-- C6 counterexample: after the consumer detaches (`clearInterval`),
an in-flight cycle that later resolves successfully still updates the
observable state — here the log buffer changes from `""` to `"abc"`
after cancellation. -/
theorem cancellation_does_not_discard_inflight :
    (resolveCycle []
        (cancelPoller
          ⟨⟨none, [], [], none, []⟩, true,
            [.success none ("abc").data []]⟩)).state ≠
      (cancelPoller
        ⟨⟨none, [], [], none, []⟩, true,
          [.success none ("abc").data []]⟩).state := by
  decide

/-- C6 amended: cancellation stops scheduling further cycles (starting
a cycle on a cancelled poller is a no-op), but it does not discard
in-flight cycles: their pending outcomes survive cancellation and
resolving them applies exactly the same state update as without
cancellation. -/
theorem cancel_stops_scheduling_not_inflight
    (rid : Str) (w : PollerWorld) (o : FetchOutcome) :
    startCycle o (cancelPoller w) = cancelPoller w ∧
    (cancelPoller w).pending = w.pending ∧
    (resolveCycle rid (cancelPoller w)).state = (resolveCycle rid w).state := by
  refine ⟨by simp [startCycle, cancelPoller], rfl, ?_⟩
  unfold resolveCycle cancelPoller
  cases w.pending <;> rfl

/-- C7 counterexample: when `total_rows` is absent the rendered
progress is *not* indeterminate — the code always emits a determinate
`value`/`max` pair, here `value = 5`, `max = 1` (and no clamping of
`value` to `max` is performed by the code). -/
theorem progress_not_indeterminate_when_total_absent :
    progressView ⟨("r1").data, ("running").data, none, 5, none, none⟩ =
      ProgressView.determinate 5 1 ∧
    progressView ⟨("r1").data, ("running").data, none, 5, none, none⟩ ≠
      ProgressView.indeterminate := by
  refine ⟨by decide, by decide⟩

/-- C7 amended: the rendered progress is always a determinate pair
`(completed_rows, total_rows ?? 1)`; when `total_rows` is known,
nonzero, and `completed_rows` does not exceed it, the denoted fraction
agrees with the spec's clamped fraction `completed_rows / total_rows`;
but when `total_rows` is absent or zero the code does not render an
indeterminate state, and it never clamps `completed_rows`. -/
theorem progress_fraction_agreement (r : RunRecord) (t : Nat)
    (ht : r.total_rows = some t) (hpos : 0 < t)
    (hle : r.completed_rows ≤ t) :
    viewFraction (progressView r) = specProgressFraction r ∧
    specProgressFraction r = some ((r.completed_rows : ℚ) / t) := by
  have htQ : (0 : ℚ) < (t : ℚ) := by exact_mod_cast hpos
  have hfrac : ((r.completed_rows : ℚ) / t) ≤ 1 := by
    rw [div_le_one htQ]
    exact_mod_cast hle
  have hmin : min 1 ((r.completed_rows : ℚ) / t) = (r.completed_rows : ℚ) / t :=
    min_eq_right hfrac
  constructor
  · simp [viewFraction, progressView, specProgressFraction, ht,
      Nat.pos_iff_ne_zero.mp hpos, hmin]
  · simp [specProgressFraction, ht, Nat.pos_iff_ne_zero.mp hpos, hmin]

/-- Witness for the amended C7 at `total_rows = 10`,
`completed_rows = 4`. -/
theorem progress_fraction_agreement_witness :
    viewFraction (progressView ⟨[], ("running").data, some 10, 4, none, none⟩) =
      some ((4 : ℚ) / 10) :=
  ((progress_fraction_agreement ⟨[], ("running").data, some 10, 4, none, none⟩
      10 rfl (by decide) (by decide)).1).trans
    (progress_fraction_agreement ⟨[], ("running").data, some 10, 4, none, none⟩
      10 rfl (by decide) (by decide)).2

/-- C8: knowledge-graph availability holds iff `kg_path` is present
(JS-truthy) or `status = running`; and once the derived KG url is
non-empty, no later cycle (successful or failed) ever changes it. -/
theorem kg_available_iff_and_url_stable :
    (∀ r : RunRecord, kgAvailable (some r) = true ↔
        (optTruthy r.kg_path = true ∨ r.status = ("running").data)) ∧
    (∀ (rid : Str) (s : PollState) (o : FetchOutcome), s.kgUrl ≠ [] →
        (applyCycle rid s o).kgUrl = s.kgUrl) := by
  constructor
  · intro r
    simp [kgAvailable]
  · intro rid s o hk
    cases o with
    | success run log results =>
      have : strTruthy s.kgUrl = true := by
        simp [strTruthy, List.isEmpty_iff, hk]
      simp [applyCycle, this]
    | failure msg => rfl

/-- Witness for C8: a running run with no `kg_path` is available, and a
successful cycle leaves an already-set `kgUrl = "u"` unchanged. -/
theorem kg_available_iff_and_url_stable_witness :
    kgAvailable (some ⟨[], ("running").data, none, 0, none, none⟩) = true ∧
    (applyCycle [] ⟨none, [], [], none, ("u").data⟩
        (.success none [] [])).kgUrl = ("u").data :=
  ⟨(kg_available_iff_and_url_stable.1 _).mpr (Or.inr rfl),
   kg_available_iff_and_url_stable.2 [] ⟨none, [], [], none, ("u").data⟩
     (.success none [] []) (by decide)⟩

/-- C9: a successful clear-history request empties the cached run list;
a failed one leaves the run list unchanged and surfaces the error
message instead. -/
theorem clear_history_success_empties_failure_preserves
    (s : DashboardState) (msg : Str) :
    (clearHistoryClick s .success).runs = [] ∧
    (clearHistoryClick s (.failure msg)).runs = s.runs ∧
    (clearHistoryClick s (.failure msg)).errMsg = some msg :=
  ⟨rfl, rfl, rfl⟩

/-- C10: both branches of the reconciler return `incoming`, so the
whole function is extensionally the projection onto its second
argument. -/
theorem reconcile_is_second_projection :
    ∀ prev inc : Str, reconcile prev inc = inc :=
  reconcile_eq_incoming

end EarningsCallRag
